import Mathlib

/-!
Verification of the transaction submission and retry engine of the s0mn1a
testnet automation tool.  The JavaScript source is shallowly embedded:
pure computations become Lean functions, the mutable session state
(`currentNonce`, proxy rotation cursor, provider/wallet) is threaded
explicitly, and every network call is represented by an environment value
describing its outcome (`Except` for calls that can throw).
-/

namespace Somnia

/-- A JavaScript `Error` as the code consumes it: an optional ethers error
`code`, a `message` string, and an optional `reason`. -/
structure JsError where
  code : Option String
  message : String
  reason : Option String
deriving Repr, DecidableEq

/-- Helper for `jsIncludes`: is `needle` a contiguous sublist of the second
argument? -/
def strContainsAux (needle : List Char) : List Char → Bool
  | [] => needle.isEmpty
  | c :: rest => needle.isPrefixOf (c :: rest) || strContainsAux needle rest

/-- JavaScript `String.prototype.includes`: `jsIncludes s sub` holds when
`sub` occurs contiguously inside `s`. -/
def jsIncludes (s sub : String) : Bool :=
  strContainsAux sub.toList s.toList

/-- JavaScript `String.prototype.toLowerCase`, character by character
(extensionally the same as `String.toLower`, but stated over the character
list so that it evaluates by kernel reduction). -/
def jsToLower (s : String) : String :=
  ⟨s.data.map Char.toLower⟩

/-- JavaScript `String.prototype.trim`: drop whitespace from both ends. -/
def jsTrim (s : String) : String :=
  ⟨((s.data.dropWhile Char.isWhitespace).reverse.dropWhile Char.isWhitespace).reverse⟩

/-- JavaScript `message.split(':')[0]`: the characters before the first
colon (the whole string when there is none). -/
def jsBeforeColon (s : String) : String :=
  ⟨s.data.takeWhile (fun c => c ≠ ':')⟩

/-! ## `src/utils/error.js` -/

/-- The `retryableErrors` table of `isRetryableError` in
`src/utils/error.js`, verbatim. -/
def retryableErrors : List String :=
  ["nonce", "underpriced", "timeout", "network", "gas", "rejected",
   "insufficient funds", "execution reverted", "NONCE_EXPIRED",
   "REPLACEMENT_UNDERPRICED", "INSUFFICIENT_FUNDS",
   "UNPREDICTABLE_GAS_LIMIT", "TIMEOUT", "ETIMEDOUT", "NETWORK_ERROR",
   "SERVER_ERROR", "CALL_EXCEPTION"]

/-- `isRetryableError` from `src/utils/error.js`: the stringified error is
lowercased and checked for each (lowercased) entry of the table. -/
def isRetryableError (error : String) : Bool :=
  retryableErrors.any fun r => jsIncludes (jsToLower error) (jsToLower r)

/-- Loop body of `withRetry` from `src/utils/error.js`.  `fn i` is the
outcome of the `i`-th invocation of the wrapped action (starting at 0);
`fuel` is the number of retries still allowed (`maxRetries - retries` in
the source).  The second component of the result counts how many times the
action was invoked.  On exhaustion the source either returns
`onError(error)` or rethrows the error. -/
def withRetryAux (fn : Nat → Except JsError α) (onError : Option (JsError → α)) :
    Nat → Nat → Except JsError α × Nat
  | 0, i =>
    match fn i with
    | .ok a => (.ok a, i + 1)
    | .error e =>
      match onError with
      | some handler => (.ok (handler e), i + 1)
      | none => (.error e, i + 1)
  | fuel + 1, i =>
    match fn i with
    | .ok a => (.ok a, i + 1)
    | .error _ => withRetryAux fn onError fuel (i + 1)

/-- `withRetry(fn, {maxRetries, onError})` from `src/utils/error.js`:
starts with `retries = 0` and retries after every caught failure while
`retries <= maxRetries`.  Returns the result together with the number of
invocations of `fn`. -/
def withRetry (fn : Nat → Except JsError α) (maxRetries : Nat)
    (onError : Option (JsError → α)) : Except JsError α × Nat :=
  withRetryAux fn onError maxRetries 0

/-- The invocation count of `withRetryAux` is at most `fuel + 1` beyond the
invocations already performed. -/
theorem withRetryAux_count_le (fn : Nat → Except JsError α)
    (onError : Option (JsError → α)) :
    ∀ fuel i, (withRetryAux fn onError fuel i).2 ≤ i + fuel + 1 := by
  intro fuel
  induction fuel with
  | zero =>
    intro i
    cases h : fn i with
    | ok a => simp only [withRetryAux, h]; omega
    | error e => cases onError <;> simp only [withRetryAux, h] <;> omega
  | succ fuel ih =>
    intro i
    cases h : fn i with
    | ok a => simp only [withRetryAux, h]; omega
    | error e =>
      have := ih (i + 1)
      simp only [withRetryAux, h]
      omega

/-- When every invocation fails, `withRetryAux` performs exactly `fuel + 1`
further invocations and rethrows the error of the last one. -/
theorem withRetryAux_allFail (fn : Nat → Except JsError α)
    (h : ∀ i, ∃ e, fn i = .error e) :
    ∀ fuel i, (withRetryAux fn none fuel i).2 = i + fuel + 1 ∧
      ∃ e, fn (i + fuel) = .error e ∧
        (withRetryAux fn none fuel i).1 = .error e := by
  intro fuel
  induction fuel with
  | zero =>
    intro i
    obtain ⟨e, he⟩ := h i
    refine ⟨?_, e, by simpa using he, ?_⟩ <;> simp [withRetryAux, he]
  | succ fuel ih =>
    intro i
    obtain ⟨e, he⟩ := h i
    have this' := ih (i + 1)
    obtain ⟨e', he', hres⟩ := this'.2
    refine ⟨?_, e', ?_, ?_⟩
    · simp only [withRetryAux, he]
      omega
    · rw [show i + (fuel + 1) = i + 1 + fuel by omega]
      exact he'
    · simp only [withRetryAux, he]
      exact hres

/-- Concrete action that fails on every invocation with a timeout error
(classified retryable by `isRetryableError`). -/
def alwaysTimeout : Nat → Except JsError Unit :=
  fun _ => .error { code := none, message := "timeout of 30000ms exceeded", reason := none }

/-- Concrete action that always fails with a message matching no entry of
the `retryableErrors` table. -/
def alwaysUnknown : Nat → Except JsError Unit :=
  fun _ => .error { code := none, message := "something odd happened", reason := none }

/-- C2 counterexample: with `maxRetries = 3` and an action that fails with a
retryable error on every invocation, `withRetry` invokes the action 4 times
(1 initial + 3 retries), not at most 3, and it rethrows the last error
instead of returning a Failure value carrying an attempt count. -/
theorem withRetry_c2_counterexample :
    isRetryableError "timeout of 30000ms exceeded" = true ∧
    (withRetry alwaysTimeout 3 none).2 = 4 ∧
    ¬ (withRetry alwaysTimeout 3 none).2 ≤ 3 ∧
    (withRetry alwaysTimeout 3 none).1 =
      Except.error { code := none, message := "timeout of 30000ms exceeded", reason := none } := by
  refine ⟨by decide, rfl, by decide, rfl⟩

/-- C2 amended: `withRetry(fn, {maxRetries: 3})` invokes the wrapped action
at most `maxRetries + 1 = 4` times in total; when the action fails on every
invocation and no `onError` handler is supplied, exactly 4 invocations are
performed and the last error is rethrown (no Failure value carrying an
attempt count is returned). -/
theorem withRetry_c2_amended {α : Type} (fn : Nat → Except JsError α)
    (h : ∀ i, ∃ e, fn i = .error e) :
    (withRetry fn 3 none).2 ≤ 4 ∧
    (withRetry fn 3 none).2 = 4 ∧
    ∃ e, fn 3 = .error e ∧ (withRetry fn 3 none).1 = .error e := by
  have hle := withRetryAux_count_le fn none 3 0
  have hall := withRetryAux_allFail fn h 3 0
  exact ⟨by simpa [withRetry] using hle, by simpa [withRetry] using hall.1,
    by simpa [withRetry] using hall.2⟩

/-- Witness for `withRetry_c2_amended` at the concrete always-failing
action `alwaysTimeout`. -/
theorem withRetry_c2_amended_witness :
    (withRetry alwaysTimeout 3 none).2 ≤ 4 ∧
    (withRetry alwaysTimeout 3 none).2 = 4 ∧
    ∃ e, alwaysTimeout 3 = .error e ∧ (withRetry alwaysTimeout 3 none).1 = .error e :=
  withRetry_c2_amended alwaysTimeout
    (fun _ => ⟨{ code := none, message := "timeout of 30000ms exceeded", reason := none }, rfl⟩)

/-- C3 counterexample: `isRetryableError` classifies the insufficient-funds
error as retryable (its table contains `INSUFFICIENT_FUNDS` and
`insufficient funds`), and `withRetry` re-invokes the action after an error
that is not classified retryable (4 invocations instead of 1). -/
theorem withRetry_c3_counterexample :
    isRetryableError "INSUFFICIENT_FUNDS" = true ∧
    isRetryableError "something odd happened" = false ∧
    (withRetry alwaysUnknown 3 none).2 = 4 := by
  refine ⟨by decide, by decide, rfl⟩

/-- C3 amended: `withRetry` never consults `isRetryableError` — it
re-invokes the wrapped action after every failure, whatever the error, up to
`maxRetries` further attempts; and `isRetryableError` classifies
insufficient-balance errors as retryable. -/
theorem withRetry_c3_amended {α : Type} (fn : Nat → Except JsError α)
    (h : ∀ i, ∃ e, fn i = .error e) :
    (withRetry fn 3 none).2 = 4 ∧
    isRetryableError "INSUFFICIENT_FUNDS" = true ∧
    isRetryableError "insufficient funds for transaction" = true := by
  exact ⟨by simpa [withRetry] using (withRetryAux_allFail fn h 3 0).1, by decide, by decide⟩

/-- Witness for `withRetry_c3_amended` at the concrete action
`alwaysUnknown`, whose error is not in the retryable table. -/
theorem withRetry_c3_amended_witness :
    (withRetry alwaysUnknown 3 none).2 = 4 ∧
    isRetryableError "INSUFFICIENT_FUNDS" = true ∧
    isRetryableError "insufficient funds for transaction" = true :=
  withRetry_c3_amended alwaysUnknown
    (fun _ => ⟨{ code := none, message := "something odd happened", reason := none }, rfl⟩)

/-! ## `src/core/blockchain.js` — gas price oracle -/

/-- `constants.GAS.PRICE_MULTIPLIER = 1.1`. -/
def PRICE_MULTIPLIER : ℚ := 11 / 10

/-- `constants.GAS.RETRY_INCREASE = 1.3`. -/
def RETRY_INCREASE : ℚ := 13 / 10

/-- `ethers.parseUnits(constants.GAS.MIN_GWEI.toString(), 'gwei')` with
`MIN_GWEI = 0.0001`: the minimum gas price in wei. -/
def MIN_GWEI_WEI : ℤ := 100000

/-- `ethers.parseUnits(constants.GAS.MAX_GWEI.toString(), 'gwei')` with
`MAX_GWEI = 200`: the maximum gas price in wei. -/
def MAX_GWEI_WEI : ℤ := 200000000000

/-- Environment for `getGasPrice`: the outcome of
`provider.getFeeData().gasPrice` on each internal attempt (indexed by the
retry count at which it is fetched), whether the proxy manager is enabled,
and the configured multiplier (`none` when `config.get` is absent; a falsy
`0` also falls back to the constant, mirroring `(... ) || constant`). -/
structure GasEnv where
  feeGasPrice : Nat → Except JsError Nat
  proxyEnabled : Bool
  configMultiplier : Option ℚ

/-- Resolution of `(this.config.get && this.config.get('general.gas_price_multiplier')) || constants.GAS.PRICE_MULTIPLIER`. -/
def resolveMultiplier (cm : Option ℚ) : ℚ :=
  match cm with
  | some q => if q = 0 then PRICE_MULTIPLIER else q
  | none => PRICE_MULTIPLIER

/-- The `Enforce min/max gas price` block of `getGasPrice` in
`src/core/blockchain.js`. -/
def clampGasPrice (adjusted : ℤ) : ℤ :=
  if adjusted < MIN_GWEI_WEI then MIN_GWEI_WEI
  else if adjusted > MAX_GWEI_WEI then MAX_GWEI_WEI
  else adjusted

/-- The min/max enforcement of `getGasPrice` keeps every input inside the
configured bounds. -/
theorem clampGasPrice_bounds (a : ℤ) :
    MIN_GWEI_WEI ≤ clampGasPrice a ∧ clampGasPrice a ≤ MAX_GWEI_WEI := by
  unfold clampGasPrice MIN_GWEI_WEI MAX_GWEI_WEI
  split_ifs <;> omega

/-- `getGasPrice(retryCount)` from `src/core/blockchain.js`: fetch the
network fee, multiply by the configured multiplier and, on retries, by
`RETRY_INCREASE ^ retryCount`, floor to an integer and clamp into
`[MIN_GWEI_WEI, MAX_GWEI_WEI]`.  On a fetch error: if proxies are enabled
and the message mentions `proxy`, rotate the proxy and recurse while
`retryCount < 3`; otherwise fall back to the minimum gas price.  The
proxy rotation mutates only the proxy pool and provider, never the value
computed here, so the embedding returns the price alone. -/
def getGasPrice (env : GasEnv) (retryCount : Nat) : ℤ :=
  match env.feeGasPrice retryCount with
  | .ok networkGasPrice =>
    let baseMultiplier := resolveMultiplier env.configMultiplier
    let multiplier := if retryCount > 0 then
        baseMultiplier * RETRY_INCREASE ^ retryCount
      else baseMultiplier
    clampGasPrice ⌊(networkGasPrice : ℚ) * multiplier⌋
  | .error e =>
    if h : (env.proxyEnabled && jsIncludes e.message "proxy") = true ∧ retryCount < 3 then
      getGasPrice env (retryCount + 1)
    else
      MIN_GWEI_WEI
termination_by 3 - retryCount
decreasing_by omega

/-- C5: for every network fee outcome (including fetch failures), every
configured multiplier and every `retryCount`, the price returned by
`getGasPrice` lies within `[MIN_GWEI, MAX_GWEI]` converted to wei; the
function is total, so no exception can escape it. -/
theorem getGasPrice_bounds (env : GasEnv) (retryCount : Nat) :
    MIN_GWEI_WEI ≤ getGasPrice env retryCount ∧
    getGasPrice env retryCount ≤ MAX_GWEI_WEI := by
  have key : ∀ n rc, 3 - rc ≤ n →
      MIN_GWEI_WEI ≤ getGasPrice env rc ∧ getGasPrice env rc ≤ MAX_GWEI_WEI := by
    intro n
    induction n with
    | zero =>
      intro rc hrc
      unfold getGasPrice
      cases env.feeGasPrice rc with
      | ok g => exact clampGasPrice_bounds _
      | error e =>
        have hno : ¬ ((env.proxyEnabled && jsIncludes e.message "proxy") = true ∧ rc < 3) := by
          intro hc
          omega
        simp only [dif_neg hno]
        exact ⟨le_refl _, by norm_num [MIN_GWEI_WEI, MAX_GWEI_WEI]⟩
    | succ n ih =>
      intro rc hrc
      unfold getGasPrice
      cases env.feeGasPrice rc with
      | ok g => exact clampGasPrice_bounds _
      | error e =>
        by_cases hc : (env.proxyEnabled && jsIncludes e.message "proxy") = true ∧ rc < 3
        · simp only [dif_pos hc]
          exact ih (rc + 1) (by omega)
        · simp only [dif_neg hc]
          exact ⟨le_refl _, by norm_num [MIN_GWEI_WEI, MAX_GWEI_WEI]⟩
  exact key (3 - retryCount) retryCount (le_refl _)

/-! ## Proxy manager (`src/unnamed/part_012`) -/

/-- JavaScript `String.prototype.startsWith`, over character lists so it
evaluates by kernel reduction. -/
def jsStartsWith (s p : String) : Bool :=
  p.toList.isPrefixOf s.toList

/-- State of the singleton `ProxyManager`: the loaded proxy list, the
resolved `isEnabled()` and `getType()` configuration, the rotation cursor
(initially `-1`), the current proxy and the URL its agent was built from. -/
structure ProxyManager where
  proxies : List String
  enabled : Bool
  proxyType : String
  currentProxyIndex : Int
  currentProxy : Option String
  agent : Option String
deriving Repr, DecidableEq

/-- The URL handed to the agent constructor in `createAgent`: prepend
`socks5://` or `http://` unless the entry already carries a scheme. -/
def createAgentUrl (proxyType : String) (proxy : String) : String :=
  if proxyType = "socks5" then
    if jsStartsWith proxy "socks5://" then proxy else "socks5://" ++ proxy
  else
    if jsStartsWith proxy "http://" || jsStartsWith proxy "https://" then proxy
    else "http://" ++ proxy

/-- `selectNextProxy()` from `src/unnamed/part_012`: when disabled or the
list is empty, clear the current proxy and agent and return `null`;
otherwise advance the round-robin cursor `(index + 1) % length` (JavaScript
`%` is truncated remainder, `Int.tmod`), select that entry, rebuild the
agent (`createAgent` keeps the previous agent when the selected entry is
`undefined`), and return the entry. -/
def selectNextProxy (pm : ProxyManager) : Option String × ProxyManager :=
  if !pm.enabled || pm.proxies.length == 0 then
    (none, { pm with currentProxy := none, agent := none })
  else
    let newIndex : Int := (pm.currentProxyIndex + 1).tmod pm.proxies.length
    let newProxy := if newIndex < 0 then none else pm.proxies[newIndex.toNat]?
    let newAgent := match newProxy with
      | none => pm.agent
      | some p => some (createAgentUrl pm.proxyType p)
    (newProxy,
     { pm with currentProxyIndex := newIndex, currentProxy := newProxy, agent := newAgent })

/-- The proxy-manager state after `n` calls to `selectNextProxy`. -/
def pmAfter (pm : ProxyManager) : Nat → ProxyManager
  | 0 => pm
  | n + 1 => (selectNextProxy (pmAfter pm n)).2

/-- The value returned by the `(n+1)`-th call to `selectNextProxy` (calls
counted from 0). -/
def nthSelect (pm : ProxyManager) (n : Nat) : Option String :=
  (selectNextProxy (pmAfter pm n)).1

/-- One rotation step from an enabled, non-empty pool whose cursor is at
least `-1`: the call returns the entry at `(index + 1) % length` and the
cursor moves there; the list and the enabled flag are untouched. -/
theorem selectNextProxy_step (pm : ProxyManager) (he : pm.enabled = true)
    (hL : 0 < pm.proxies.length) (hidx : -1 ≤ pm.currentProxyIndex) :
    (selectNextProxy pm).1 =
      pm.proxies[((pm.currentProxyIndex + 1).toNat % pm.proxies.length)]? ∧
    (selectNextProxy pm).2.proxies = pm.proxies ∧
    (selectNextProxy pm).2.enabled = pm.enabled ∧
    (selectNextProxy pm).2.currentProxyIndex =
      (((pm.currentProxyIndex + 1).toNat % pm.proxies.length : ℕ) : ℤ) := by
  have hnn : (0 : ℤ) ≤ pm.currentProxyIndex + 1 := by omega
  have hLpos : (0 : ℤ) ≤ (pm.proxies.length : ℤ) := by omega
  have htm : (pm.currentProxyIndex + 1).tmod pm.proxies.length =
      (((pm.currentProxyIndex + 1).toNat % pm.proxies.length : ℕ) : ℤ) := by
    rw [Int.tmod_eq_emod hnn hLpos]
    rw [show pm.currentProxyIndex + 1 = (((pm.currentProxyIndex + 1).toNat : ℕ) : ℤ) from
      (Int.toNat_of_nonneg hnn).symm]
    push_cast
    rfl
  have hguard : (!pm.enabled || pm.proxies.length == 0) = false := by
    rw [he]
    simp only [Bool.not_true, Bool.false_or, beq_eq_false_iff_ne, ne_eq]
    omega
  simp only [selectNextProxy, hguard, Bool.false_eq_true, if_false, htm, Int.toNat_natCast]
  rw [if_neg (by omega :
    ¬ ((((pm.currentProxyIndex + 1).toNat % pm.proxies.length : ℕ) : ℤ) < 0))]
  refine ⟨?_, ?_, ?_, ?_⟩ <;> first
  | rfl
  | trivial

/-- State after `k + 1` rotation steps: the list and flag persist and the
cursor sits at `(start + k) % length`, where `start` is the index selected
by the first call. -/
theorem pmAfter_spec (pm : ProxyManager) (he : pm.enabled = true)
    (hL : 0 < pm.proxies.length) (hidx : -1 ≤ pm.currentProxyIndex) :
    ∀ k, (pmAfter pm (k + 1)).proxies = pm.proxies ∧
      (pmAfter pm (k + 1)).enabled = true ∧
      (pmAfter pm (k + 1)).currentProxyIndex =
        ((((pm.currentProxyIndex + 1).toNat + k) % pm.proxies.length : ℕ) : ℤ) := by
  intro k
  induction k with
  | zero =>
    have h := selectNextProxy_step pm he hL hidx
    simp only [pmAfter]
    exact ⟨h.2.1, by rw [h.2.2.1]; exact he, by rw [h.2.2.2]; norm_num⟩
  | succ k ih =>
    have hidx' : -1 ≤ (pmAfter pm (k + 1)).currentProxyIndex := by
      rw [ih.2.2]
      omega
    have hL' : 0 < (pmAfter pm (k + 1)).proxies.length := by rw [ih.1]; exact hL
    have h := selectNextProxy_step (pmAfter pm (k + 1)) ih.2.1 hL' hidx'
    have hstep : pmAfter pm (k + 1 + 1) = (selectNextProxy (pmAfter pm (k + 1))).2 := rfl
    refine ⟨?_, ?_, ?_⟩
    · rw [hstep, h.2.1, ih.1]
    · rw [hstep, h.2.2.1, ih.2.1]
    · rw [hstep, h.2.2.2, ih.2.2, ih.1]
      have hto : (((((pm.currentProxyIndex + 1).toNat + k) % pm.proxies.length : ℕ) : ℤ) + 1).toNat
          = ((pm.currentProxyIndex + 1).toNat + k) % pm.proxies.length + 1 := by omega
      rw [hto, Nat.mod_add_mod, Nat.add_assoc]

/-- The value returned by call `k + 1`: the entry at
`(start + k) % length`. -/
theorem nthSelect_spec (pm : ProxyManager) (he : pm.enabled = true)
    (hL : 0 < pm.proxies.length) (hidx : -1 ≤ pm.currentProxyIndex) :
    ∀ k, nthSelect pm k =
      pm.proxies[(((pm.currentProxyIndex + 1).toNat + k) % pm.proxies.length)]? := by
  intro k
  cases k with
  | zero =>
    have h := selectNextProxy_step pm he hL hidx
    simpa [nthSelect, pmAfter] using h.1
  | succ k =>
    have hprev := pmAfter_spec pm he hL hidx k
    have hidx' : -1 ≤ (pmAfter pm (k + 1)).currentProxyIndex := by
      rw [hprev.2.2]
      omega
    have hL' : 0 < (pmAfter pm (k + 1)).proxies.length := by rw [hprev.1]; exact hL
    have h := selectNextProxy_step (pmAfter pm (k + 1)) hprev.2.1 hL' hidx'
    unfold nthSelect
    rw [h.1, hprev.1, hprev.2.2]
    have hto : (((((pm.currentProxyIndex + 1).toNat + k) % pm.proxies.length : ℕ) : ℤ) + 1).toNat
        = ((pm.currentProxyIndex + 1).toNat + k) % pm.proxies.length + 1 := by omega
    rw [hto, Nat.mod_add_mod, Nat.add_assoc]

/-- C7: for an enabled pool holding `L` proxies (cursor at its initial
`-1` or at any previously selected position), `L` successive calls to
`selectNextProxy` return the `L` entries exactly once each, in (cyclic)
list order — the rotation of the list starting at `(index + 1) % L` — and
the `(L + 1)`-th call returns the same entry as the first call again. -/
theorem selectNextProxy_c7_roundRobin (pm : ProxyManager) (he : pm.enabled = true)
    (hL : 0 < pm.proxies.length) (hidx : -1 ≤ pm.currentProxyIndex) :
    (List.range pm.proxies.length).map (nthSelect pm) =
      (pm.proxies.rotate ((pm.currentProxyIndex + 1).toNat % pm.proxies.length)).map some ∧
    nthSelect pm pm.proxies.length = nthSelect pm 0 := by
  constructor
  · apply List.ext_getElem?
    intro n
    by_cases hn : n < pm.proxies.length
    · rw [List.getElem?_map, List.getElem?_map]
      rw [List.getElem?_range hn]
      rw [List.getElem?_rotate (by simpa using hn)]
      simp only [Option.map_some']
      rw [nthSelect_spec pm he hL hidx n]
      have heq : (n + (pm.currentProxyIndex + 1).toNat % pm.proxies.length) % pm.proxies.length
          = ((pm.currentProxyIndex + 1).toNat + n) % pm.proxies.length := by
        rw [Nat.add_mod_mod, Nat.add_comm]
      rw [heq]
      have hj : ((pm.currentProxyIndex + 1).toNat + n) % pm.proxies.length <
          pm.proxies.length := Nat.mod_lt _ hL
      rw [List.getElem?_eq_getElem hj]
      rfl
    · have h1 : ((List.range pm.proxies.length).map (nthSelect pm)).length ≤ n := by
        simpa using Nat.le_of_not_lt hn
      have h2 : ((pm.proxies.rotate
          ((pm.currentProxyIndex + 1).toNat % pm.proxies.length)).map some).length ≤ n := by
        simpa [List.length_rotate] using Nat.le_of_not_lt hn
      rw [List.getElem?_eq_none h1, List.getElem?_eq_none h2]
  · rw [nthSelect_spec pm he hL hidx pm.proxies.length,
      nthSelect_spec pm he hL hidx 0]
    rw [Nat.add_mod_right, Nat.add_zero]

/-- Concrete two-entry pool in its freshly initialized state (cursor `-1`). -/
def pmExample : ProxyManager :=
  { proxies := ["10.0.0.1:8080", "10.0.0.2:8080"]
    enabled := true
    proxyType := "http"
    currentProxyIndex := -1
    currentProxy := none
    agent := none }

/-- Witness for `selectNextProxy_c7_roundRobin` on a concrete two-entry
pool: the first two calls return the two entries in list order and the
third call repeats the first entry. -/
theorem selectNextProxy_c7_roundRobin_witness :
    (pmExample.enabled = true ∧ 0 < pmExample.proxies.length ∧
      -1 ≤ pmExample.currentProxyIndex) ∧
    ((List.range pmExample.proxies.length).map (nthSelect pmExample) =
      (pmExample.proxies.rotate
        ((pmExample.currentProxyIndex + 1).toNat % pmExample.proxies.length)).map some ∧
     nthSelect pmExample pmExample.proxies.length = nthSelect pmExample 0) :=
  ⟨⟨rfl, by decide, by decide⟩,
   selectNextProxy_c7_roundRobin pmExample rfl (by decide) (by decide)⟩

/-! ## Nonce sequencer (`src/src/core/blockchain.js`) -/

/-- `incrementNonce()` from `src/src/core/blockchain.js`: advance the
cursor only when it is initialized (`currentNonce !== null`). -/
def incrementNonce : Option Nat → Option Nat
  | none => none
  | some n => some (n + 1)

/-- `resetNonce()` from `src/src/core/blockchain.js`: clear the cursor. -/
def resetNonce : Option Nat → Option Nat := fun _ => none

/-- `getNonce()` from `src/src/core/blockchain.js`: on a `null` cursor,
query the network (`fetch` is the outcome of
`provider.getTransactionCount`) and cache the result; otherwise return the
cached value without touching the network.  The returned pair is the nonce
and the updated cursor; an error on the initial query propagates. -/
def getNonce (fetch : Except JsError Nat) : Option Nat → Except JsError (Nat × Option Nat)
  | none =>
    match fetch with
    | .ok n => .ok (n, some n)
    | .error e => .error e
  | some n => .ok (n, some n)

/-- C10: any number of `incrementNonce` calls on an uninitialized cursor
(fresh or reset) leaves it uninitialized, so the next `getNonce` behaves
exactly like one on a `null` cursor (a fresh network query); on an
initialized cursor holding `n`, one call sets it to exactly `n + 1`. -/
theorem incrementNonce_c10 :
    (∀ k, incrementNonce^[k] none = none) ∧
    (∀ k c, incrementNonce^[k] (resetNonce c) = none) ∧
    (∀ k fetch c, getNonce fetch (incrementNonce^[k] (resetNonce c)) = getNonce fetch none) ∧
    (∀ n, incrementNonce (some n) = some (n + 1)) := by
  have hfix : ∀ k, incrementNonce^[k] none = none :=
    fun k => Function.iterate_fixed rfl k
  exact ⟨hfix, fun k c => hfix k, fun k fetch c => by rw [resetNonce, hfix], fun n => rfl⟩

/-! ## `changeProxy` and the session state (`src/src/core/blockchain.js`) -/

/-- The `ethers.JsonRpcProvider` built by `_createProvider(rpcUrl)`: the
RPC URL plus, through the custom fetch function carrying the proxy
manager's headers and agent, the proxy that was current at creation time. -/
structure Provider where
  rpcUrl : String
  builtAgainst : Option String
deriving Repr, DecidableEq

/-- An `ethers.Wallet`: determined by the private key and the attached
provider. -/
structure Wallet where
  privateKey : String
  provider : Provider
deriving Repr, DecidableEq

/-- `_createProvider(rpcUrl)`: a fresh provider wired to the proxy
manager's current proxy. -/
def createProvider (pm : ProxyManager) (rpcUrl : String) : Provider :=
  { rpcUrl := rpcUrl, builtAgainst := pm.currentProxy }

/-- The per-session mutable state of a `Blockchain` instance: RPC URL,
private key (the empty string standing for the JavaScript falsy absent
key), wallet, account address, nonce cursor and provider. -/
structure BlockchainState where
  rpcUrl : String
  privateKey : String
  wallet : Option Wallet
  address : Option String
  currentNonce : Option Nat
  provider : Provider
deriving Repr, DecidableEq

/-- `changeProxy()` from `src/src/core/blockchain.js`, acting on the proxy
manager singleton and one session: ask the pool for the next proxy; when
one is selected, rebuild the provider against it and, if a private key is
present, recreate the signing wallet and reassign the address.
`walletAddress` abstracts the ethers private-key-to-address derivation (a
pure function of the key).  The nonce cursor is not mentioned anywhere in
the source of `changeProxy`. -/
def changeProxy (walletAddress : String → String) (pm : ProxyManager)
    (bc : BlockchainState) : Option String × ProxyManager × BlockchainState :=
  let sel := selectNextProxy pm
  match sel.1 with
  | some _ =>
    let provider' := createProvider sel.2 bc.rpcUrl
    let bc' :=
      if bc.privateKey ≠ "" then
        { bc with provider := provider',
                  wallet := some { privateKey := bc.privateKey, provider := provider' },
                  address := some (walletAddress bc.privateKey) }
      else { bc with provider := provider' }
    (sel.1, sel.2, bc')
  | none => (sel.1, sel.2, bc)

/-- C9: when the pool is enabled and non-empty, `changeProxy` selects a
proxy and rebuilds only the connection state — the provider is a fresh one
created against the rotated pool and the signing wallet is recreated on it
— while the session's nonce cursor and the wallet address are exactly what
they were before the call. -/
theorem changeProxy_c9_frame (walletAddress : String → String) (pm : ProxyManager)
    (bc : BlockchainState) (he : pm.enabled = true) (hL : 0 < pm.proxies.length)
    (hidx : -1 ≤ pm.currentProxyIndex) (hpk : bc.privateKey ≠ "")
    (haddr : bc.address = some (walletAddress bc.privateKey)) :
    (changeProxy walletAddress pm bc).1.isSome = true ∧
    (changeProxy walletAddress pm bc).2.2.currentNonce = bc.currentNonce ∧
    (changeProxy walletAddress pm bc).2.2.address = bc.address ∧
    (changeProxy walletAddress pm bc).2.2.provider =
      createProvider (changeProxy walletAddress pm bc).2.1 bc.rpcUrl ∧
    (changeProxy walletAddress pm bc).2.2.wallet =
      some { privateKey := bc.privateKey,
             provider := (changeProxy walletAddress pm bc).2.2.provider } := by
  have hstep := selectNextProxy_step pm he hL hidx
  have hj : ((pm.currentProxyIndex + 1).toNat % pm.proxies.length) < pm.proxies.length :=
    Nat.mod_lt _ hL
  have hv : (selectNextProxy pm).1 =
      some (pm.proxies.get ⟨(pm.currentProxyIndex + 1).toNat % pm.proxies.length, hj⟩) := by
    rw [hstep.1]
    exact List.getElem?_eq_getElem hj
  simp only [changeProxy, hv, if_pos hpk]
  refine ⟨?_, ?_, ?_, ?_, ?_⟩ <;> first
  | rfl
  | trivial
  | exact haddr.symm

/-- Concrete session state for the `changeProxy` frame witness. -/
def bcExample : BlockchainState :=
  { rpcUrl := "https://dream-rpc.somnia.network"
    privateKey := "0xabc123"
    wallet := some { privateKey := "0xabc123"
                     provider := { rpcUrl := "https://dream-rpc.somnia.network"
                                   builtAgainst := none } }
    address := some "addr-of-0xabc123"
    currentNonce := some 7
    provider := { rpcUrl := "https://dream-rpc.somnia.network", builtAgainst := none } }

/-- Address derivation used by the `changeProxy` witness. -/
def addrFn : String → String := fun pk => "addr-of-" ++ pk

/-- Witness for `changeProxy_c9_frame` on a concrete pool and session. -/
theorem changeProxy_c9_frame_witness :
    (pmExample.enabled = true ∧ 0 < pmExample.proxies.length ∧
      -1 ≤ pmExample.currentProxyIndex ∧ bcExample.privateKey ≠ "" ∧
      bcExample.address = some (addrFn bcExample.privateKey)) ∧
    ((changeProxy addrFn pmExample bcExample).1.isSome = true ∧
     (changeProxy addrFn pmExample bcExample).2.2.currentNonce = bcExample.currentNonce ∧
     (changeProxy addrFn pmExample bcExample).2.2.address = bcExample.address ∧
     (changeProxy addrFn pmExample bcExample).2.2.provider =
       createProvider (changeProxy addrFn pmExample bcExample).2.1 bcExample.rpcUrl ∧
     (changeProxy addrFn pmExample bcExample).2.2.wallet =
       some { privateKey := bcExample.privateKey,
              provider := (changeProxy addrFn pmExample bcExample).2.2.provider }) :=
  ⟨⟨rfl, by decide, by decide, by decide, rfl⟩,
   changeProxy_c9_frame addrFn pmExample bcExample rfl (by decide) (by decide)
     (by decide) rfl⟩

/-! ## Transaction submission (`sendTransaction` in `src/src/core/blockchain.js`)

The network-dependent steps of one attempt are supplied by an
`AttemptEnv`: the outcome of the nonce query, the values produced by the
(total, never-throwing — see `getGasPrice_bounds`) gas-price and
gas-estimation calls, and the outcomes of `wallet.sendTransaction`
(broadcast) and `tx.wait` (receipt).  The gas values fill the transaction
template but influence neither the nonce bookkeeping nor the result
classification, so the embedding records the outcome, the cursor and the
nonces placed in broadcast attempts. -/

/-- A transaction receipt. -/
structure Receipt where
  hash : String
deriving Repr, DecidableEq

/-- The value returned by `sendTransaction`: either
`{txHash, receipt, success: true}` or
`{success: false, error, code, details}`. -/
inductive TxResult where
  | success (txHash : String) (receipt : Receipt)
  | failure (error : String) (code : String) (details : JsError)
deriving Repr, DecidableEq

/-- The clean-error-message extraction of the `catch` block in
`sendTransaction`: special-case the four known ethers codes, otherwise
append the reason to the code; with no (truthy) code, take the part of the
message before the first colon, trimmed, when the message contains one. -/
def cleanErrorMessage (e : JsError) : String :=
  match e.code with
  | some c =>
    if c = "INSUFFICIENT_FUNDS" then "Insufficient funds for transaction"
    else if c = "NONCE_EXPIRED" then "Nonce has already been used"
    else if c = "REPLACEMENT_UNDERPRICED" then "Gas price too low to replace pending transaction"
    else if c = "UNPREDICTABLE_GAS_LIMIT" then "Cannot estimate gas for transaction"
    else
      match e.reason with
      | some r => c ++ ": " ++ r
      | none => c
  | none =>
    if jsIncludes e.message ":" then jsTrim (jsBeforeColon e.message)
    else e.message

/-- The fields of the caller-supplied transaction object that steer
`sendTransaction`'s control flow: the optional explicit gas limit and gas
price (`some 0` is falsy in JavaScript and treated like absence) and the
internal proxy-retry counter. -/
structure TxObject where
  gasLimit : Option Nat
  gasPrice : Option Int
  retryCount : Option Nat
deriving Repr, DecidableEq

/-- Outcomes of the network-dependent steps of one attempt. -/
structure AttemptEnv where
  fetchNonce : Except JsError Nat
  gasPrice : Int
  gasEstimate : Nat
  broadcast : Except JsError Unit
  wait : Except JsError Receipt

/-- Outcome of one body of `sendTransaction`'s `try` block, before the
`catch` handler decides between a proxy retry and a returned failure:
either a completed result or a caught error, together with the cursor
after the attempt and the nonces placed in broadcast attempts. -/
inductive AttemptOutcome where
  | done (r : TxResult) (cursor : Option Nat) (used : List Nat)
  | failed (e : JsError) (cursor : Option Nat) (used : List Nat)

/-- The part of the `try` block from the point where the nonce `n` is in
hand: fill the template (gas values from the environment), increment the
cursor (`Increment nonce before sending` in the source — this happens
before the broadcast), then broadcast and await the receipt. -/
def sendAttemptCore (env : AttemptEnv) (n : Nat) : AttemptOutcome :=
  let cursor' := incrementNonce (some n)
  match env.broadcast with
  | .error e => .failed e cursor' [n]
  | .ok _ =>
    match env.wait with
    | .error e => .failed e cursor' [n]
    | .ok receipt => .done (.success receipt.hash receipt) cursor' [n]

/-- One full `try` block: resolve the nonce through `getNonce` (a cached
cursor is returned as-is; a `null` cursor triggers the network query whose
outcome is `env.fetchNonce`), then proceed to the broadcast steps. -/
def sendAttempt (env : AttemptEnv) (cursor : Option Nat) : AttemptOutcome :=
  match cursor with
  | some n => sendAttemptCore env n
  | none =>
    match env.fetchNonce with
    | .error e => .failed e none []
    | .ok n => sendAttemptCore env n

/-- The proxy-error test of `sendTransaction`'s `catch` block:
`proxyManager.isEnabled()` and the message mentions one of the four
connection-failure patterns. -/
def isProxyError (pmEnabled : Bool) (e : JsError) : Bool :=
  pmEnabled && (jsIncludes e.message "proxy" || jsIncludes e.message "ETIMEDOUT" ||
    jsIncludes e.message "ECONNREFUSED" || jsIncludes e.message "ECONNRESET")

/-- `txObject.retryCount === undefined || txObject.retryCount < 3`. -/
def retryAllowed : Option Nat → Bool
  | none => true
  | some k => decide (k < 3)

/-- `sendTransaction(txObject, methodName)` from
`src/src/core/blockchain.js`.  `envs i` is the environment of the `i`-th
attempt (the proxy-retry recursion consumes successive environments).  On
a caught error that matches the proxy patterns while `retryCount` permits,
the proxy is rotated (state not observed here) and the call recurses with
`retryCount + 1`; otherwise the classified failure value is returned.
The result is the returned value, the final nonce cursor and the nonces
placed in broadcast attempts, in order. -/
def sendTransaction (envs : Nat → AttemptEnv) (pmEnabled : Bool) (tx : TxObject)
    (cursor : Option Nat) (attempt : Nat) : TxResult × Option Nat × List Nat :=
  match sendAttempt (envs attempt) cursor with
  | .done r c u => (r, c, u)
  | .failed e c u =>
    if h : (isProxyError pmEnabled e && retryAllowed tx.retryCount) = true then
      let tx' := { tx with retryCount := some (tx.retryCount.getD 0 + 1) }
      let r' := sendTransaction envs pmEnabled tx' c (attempt + 1)
      (r'.1, r'.2.1, u ++ r'.2.2)
    else
      (.failure (cleanErrorMessage e) (e.code.getD "UNKNOWN_ERROR") e, c, u)
termination_by 4 - tx.retryCount.getD 0
decreasing_by
  cases htx : tx.retryCount with
  | none => simp [htx] <;> omega
  | some k =>
    rw [htx, Bool.and_eq_true] at h
    have hk : k < 3 := by simpa [retryAllowed] using h.2
    simp [htx]
    omega

/-- Directed unfolding: a completed `try` block returns its result. -/
theorem sendTransaction_done {envs : Nat → AttemptEnv} {pmEnabled : Bool} {tx : TxObject}
    {cursor : Option Nat} {attempt : Nat} {r : TxResult} {c : Option Nat} {u : List Nat}
    (hatt : sendAttempt (envs attempt) cursor = .done r c u) :
    sendTransaction envs pmEnabled tx cursor attempt = (r, c, u) := by
  rw [sendTransaction, hatt]

/-- Directed unfolding: a caught proxy-class error with retries remaining
recurses with `retryCount + 1`, prepending the nonces already consumed. -/
theorem sendTransaction_failed_retry {envs : Nat → AttemptEnv} {pmEnabled : Bool}
    {tx : TxObject} {cursor : Option Nat} {attempt : Nat} {e : JsError} {c : Option Nat}
    {u : List Nat} (hatt : sendAttempt (envs attempt) cursor = .failed e c u)
    (hcond : (isProxyError pmEnabled e && retryAllowed tx.retryCount) = true) :
    sendTransaction envs pmEnabled tx cursor attempt =
      ((sendTransaction envs pmEnabled { tx with retryCount := some (tx.retryCount.getD 0 + 1) }
          c (attempt + 1)).1,
       (sendTransaction envs pmEnabled { tx with retryCount := some (tx.retryCount.getD 0 + 1) }
          c (attempt + 1)).2.1,
       u ++ (sendTransaction envs pmEnabled { tx with retryCount := some (tx.retryCount.getD 0 + 1) }
          c (attempt + 1)).2.2) := by
  rw [sendTransaction, hatt]
  change dite _ _ _ = _
  rw [dif_pos hcond]

/-- Directed unfolding: a caught error that is not proxy-class (or whose
retries are exhausted) is returned as the classified failure value. -/
theorem sendTransaction_failed_noretry {envs : Nat → AttemptEnv} {pmEnabled : Bool}
    {tx : TxObject} {cursor : Option Nat} {attempt : Nat} {e : JsError} {c : Option Nat}
    {u : List Nat} (hatt : sendAttempt (envs attempt) cursor = .failed e c u)
    (hcond : (isProxyError pmEnabled e && retryAllowed tx.retryCount) = false) :
    sendTransaction envs pmEnabled tx cursor attempt =
      (.failure (cleanErrorMessage e) (e.code.getD "UNKNOWN_ERROR") e, c, u) := by
  rw [sendTransaction, hatt]
  change dite _ _ _ = _
  rw [dif_neg (by simp [hcond])]

/-- Every value `sendTransaction` returns is either a success record or a
failure record whose `error` is the classified reason string and whose
`code` is `error.code || 'UNKNOWN_ERROR'`. -/
abbrev ResultClassified (r : TxResult) : Prop :=
  (∃ h rc, r = TxResult.success h rc) ∨
  (∃ e, r = TxResult.failure (cleanErrorMessage e) (e.code.getD "UNKNOWN_ERROR") e)

/-- The output `out` of a send consumed the consecutive nonces starting at
`n`: the used list is `n, n+1, …`, at least one broadcast attempt was
made, and the cursor ends one past the last consumed nonce. -/
abbrev UsedFrom (n : Nat) (out : TxResult × Option Nat × List Nat) : Prop :=
  out.2.2 = List.range' n out.2.2.length ∧ out.2.2 ≠ [] ∧
  out.2.1 = some (n + out.2.2.length)

/-- Main invariant of `sendTransaction`: the result is always classified
(no exception escapes), an initialized cursor `some n` consumes exactly
the consecutive nonces from `n` (one per broadcast attempt, incremented
before each broadcast), an uninitialized cursor either stays uninitialized
with no nonce consumed or behaves like `some n0` for the first
successfully fetched `n0`, and when the first attempt's fetch succeeds
with `n0` the consumed nonces start exactly at `n0`. -/
theorem sendTransaction_spec (envs : Nat → AttemptEnv) (pmEnabled : Bool) :
    ∀ (m : Nat) (tx : TxObject) (cursor : Option Nat) (attempt : Nat),
      4 - tx.retryCount.getD 0 ≤ m →
      ResultClassified (sendTransaction envs pmEnabled tx cursor attempt).1 ∧
      (∀ n, cursor = some n →
        UsedFrom n (sendTransaction envs pmEnabled tx cursor attempt)) ∧
      (cursor = none →
        ((sendTransaction envs pmEnabled tx cursor attempt).2.2 = [] ∧
         (sendTransaction envs pmEnabled tx cursor attempt).2.1 = none) ∨
        ∃ n0, UsedFrom n0 (sendTransaction envs pmEnabled tx cursor attempt)) ∧
      (∀ n0, cursor = none → (envs attempt).fetchNonce = .ok n0 →
        UsedFrom n0 (sendTransaction envs pmEnabled tx cursor attempt)) := by
  intro m
  induction m using Nat.strong_induction_on with
  | _ m ih =>
    intro tx cursor attempt hm
    -- Handling of a caught error after the increment: the cursor is at
    -- `n + 1` and the nonce `n` was consumed by the broadcast attempt.
    have hfailedAfter : ∀ e n,
        sendAttempt (envs attempt) cursor = .failed e (some (n + 1)) [n] →
        ResultClassified (sendTransaction envs pmEnabled tx cursor attempt).1 ∧
        UsedFrom n (sendTransaction envs pmEnabled tx cursor attempt) := by
      intro e n hatt
      by_cases hcond : (isProxyError pmEnabled e && retryAllowed tx.retryCount) = true
      · -- proxy retry: recurse from the incremented cursor
        have hallow : retryAllowed tx.retryCount = true := by
          have h2 : isProxyError pmEnabled e = true ∧ retryAllowed tx.retryCount = true := by
            simpa [Bool.and_eq_true] using hcond
          exact h2.2
        have hlt : tx.retryCount.getD 0 < 4 := by
          cases htx : tx.retryCount with
          | none => simp
          | some k =>
            rw [htx] at hallow
            simp only [retryAllowed, decide_eq_true_eq] at hallow
            simp
            omega
        have hrec := ih (m - 1) (by omega)
          { tx with retryCount := some (tx.retryCount.getD 0 + 1) }
          (some (n + 1)) (attempt + 1) (by simp; omega)
        have hused := hrec.2.1 (n + 1) rfl
        rw [sendTransaction_failed_retry hatt hcond]
        obtain ⟨hu, hne, hc⟩ := hused
        refine ⟨hrec.1, ?_, by simp, ?_⟩
        · show [n] ++ _ = List.range' n ([n] ++ _).length
          rw [List.length_append]
          rw [show ([n] : List Nat).length = 1 from rfl]
          rw [show (1 : Nat) + (sendTransaction envs pmEnabled
              { tx with retryCount := some (tx.retryCount.getD 0 + 1) }
              (some (n + 1)) (attempt + 1)).2.2.length =
            (sendTransaction envs pmEnabled
              { tx with retryCount := some (tx.retryCount.getD 0 + 1) }
              (some (n + 1)) (attempt + 1)).2.2.length + 1 from by omega]
          rw [List.range'_succ]
          rw [show List.range' (n + 1) (sendTransaction envs pmEnabled
              { tx with retryCount := some (tx.retryCount.getD 0 + 1) }
              (some (n + 1)) (attempt + 1)).2.2.length = (sendTransaction envs pmEnabled
              { tx with retryCount := some (tx.retryCount.getD 0 + 1) }
              (some (n + 1)) (attempt + 1)).2.2 from hu.symm]
          rfl
        · show _ = some (n + ([n] ++ _).length)
          rw [List.length_append, hc]
          rw [show ([n] : List Nat).length = 1 from rfl]
          congr 1
          omega
      · -- no retry: the classified failure is returned
        have hcond' : (isProxyError pmEnabled e && retryAllowed tx.retryCount) = false := by
          simpa using hcond
        rw [sendTransaction_failed_noretry hatt hcond']
        exact ⟨Or.inr ⟨e, rfl⟩, by simp [List.range'_one], by simp, rfl⟩
    -- Handling of the steps after the nonce `n` is in hand.
    have hcore : ∀ n, sendAttempt (envs attempt) cursor = sendAttemptCore (envs attempt) n →
        ResultClassified (sendTransaction envs pmEnabled tx cursor attempt).1 ∧
        UsedFrom n (sendTransaction envs pmEnabled tx cursor attempt) := by
      intro n hatt
      cases hb : (envs attempt).broadcast with
      | error e =>
        exact hfailedAfter e n (by rw [hatt]; simp [sendAttemptCore, hb, incrementNonce])
      | ok _ =>
        cases hw : (envs attempt).wait with
        | error e =>
          exact hfailedAfter e n (by rw [hatt]; simp [sendAttemptCore, hb, hw, incrementNonce])
        | ok receipt =>
          have hatt2 : sendAttempt (envs attempt) cursor =
              .done (.success receipt.hash receipt) (some (n + 1)) [n] := by
            rw [hatt]
            simp [sendAttemptCore, hb, hw, incrementNonce]
          rw [sendTransaction_done hatt2]
          exact ⟨Or.inl ⟨receipt.hash, receipt, rfl⟩, by simp [List.range'_one], by simp, rfl⟩
    cases cursor with
    | some n =>
      have h := hcore n rfl
      refine ⟨h.1, ?_, ?_, ?_⟩
      · intro n' hn'
        cases hn'
        exact h.2
      · intro hn
        cases hn
      · intro n0 hn
        cases hn
    | none =>
      cases hf : (envs attempt).fetchNonce with
      | ok n =>
        have h := hcore n (by simp [sendAttempt, hf])
        refine ⟨h.1, ?_, ?_, ?_⟩
        · intro n' hn'
          cases hn'
        · intro hnone
          exact Or.inr ⟨n, h.2⟩
        · intro n0 hn0 hf'
          cases hf'
          exact h.2
      | error e =>
        have hatt : sendAttempt (envs attempt) none = .failed e none [] := by
          simp [sendAttempt, hf]
        by_cases hcond : (isProxyError pmEnabled e && retryAllowed tx.retryCount) = true
        · have hallow : retryAllowed tx.retryCount = true := by
            have h2 : isProxyError pmEnabled e = true ∧ retryAllowed tx.retryCount = true := by
              simpa [Bool.and_eq_true] using hcond
            exact h2.2
          have hlt : tx.retryCount.getD 0 < 4 := by
            cases htx : tx.retryCount with
            | none => simp
            | some k =>
              rw [htx] at hallow
              simp only [retryAllowed, decide_eq_true_eq] at hallow
              simp
              omega
          have hrec := ih (m - 1) (by omega)
            { tx with retryCount := some (tx.retryCount.getD 0 + 1) }
            none (attempt + 1) (by simp; omega)
          rw [sendTransaction_failed_retry hatt hcond]
          refine ⟨hrec.1, ?_, ?_, ?_⟩
          · intro n' hn'
            cases hn'
          · intro hnone
            rcases hrec.2.2.1 rfl with hleft | ⟨n0, hu, hne, hc⟩
            · exact Or.inl (by simpa using hleft)
            · refine Or.inr ⟨n0, ?_, by simpa using hne, by simpa using hc⟩
              simpa using hu
          · intro n0 hnone hf'
            cases hf'
        · have hcond' : (isProxyError pmEnabled e && retryAllowed tx.retryCount) = false := by
            simpa using hcond
          rw [sendTransaction_failed_noretry hatt hcond']
          refine ⟨Or.inr ⟨e, rfl⟩, ?_, ?_, ?_⟩
          · intro n' hn'
            cases hn'
          · intro hnone
            exact Or.inl ⟨rfl, rfl⟩
          · intro n0 hnone hf'
            cases hf'

/-- C6: `sendTransaction` never lets an exception escape: whatever the
outcomes of nonce fetch, gas pricing, gas estimation, signing/broadcast
and receipt wait (and through any chain of proxy retries), it returns
either a success record `{txHash, receipt, success: true}` or a structured
failure `{success: false, error, code, details}` whose `error` is the
classified reason string and whose `code` defaults to `UNKNOWN_ERROR`. -/
theorem sendTransaction_c6_classified (envs : Nat → AttemptEnv) (pmEnabled : Bool)
    (tx : TxObject) (cursor : Option Nat) (attempt : Nat) :
    ResultClassified (sendTransaction envs pmEnabled tx cursor attempt).1 :=
  (sendTransaction_spec envs pmEnabled (4 - tx.retryCount.getD 0) tx cursor attempt
    le_rfl).1

/-- A transaction object with no explicit gas fields and no retry
counter, as business operations supply it. -/
def txNone : TxObject := { gasLimit := none, gasPrice := none, retryCount := none }

/-- C1 counterexample: a send whose broadcast fails does not leave the
nonce cursor unchanged.  With the cursor at `7` and the wallet's
`sendTransaction` throwing `INSUFFICIENT_FUNDS` (not a proxy error, so no
retry), the call returns a failure value but the cursor has moved to `8`,
because the source increments the nonce before broadcasting. -/
def eInsuff : JsError :=
  { code := some "INSUFFICIENT_FUNDS",
    message := "insufficient funds for intrinsic transaction cost", reason := none }

/-- Environment of the C1 counterexample: nonce `7` from the network, a
broadcast that throws `eInsuff`. -/
def envC1 : AttemptEnv :=
  { fetchNonce := .ok 7, gasPrice := 1100000000, gasEstimate := 180000,
    broadcast := .error eInsuff, wait := .ok { hash := "0xdead" } }

/-- C1 counterexample theorem (see `eInsuff`, `envC1`). -/
theorem sendTransaction_c1_counterexample :
    (sendTransaction (fun _ => envC1) false
        txNone (some 7) 0).1 =
      TxResult.failure "Insufficient funds for transaction" "INSUFFICIENT_FUNDS" eInsuff ∧
    (sendTransaction (fun _ => envC1) false
        txNone (some 7) 0).2.1 = some 8 ∧
    (sendTransaction (fun _ => envC1) false
        txNone (some 7) 0).2.1 ≠
      some 7 := by
  have hatt : sendAttempt ((fun _ => envC1) 0) (some 7) =
      .failed eInsuff (some 8) [7] := rfl
  have hcond : (isProxyError false eInsuff &&
      retryAllowed txNone.retryCount) = false := rfl
  rw [sendTransaction_failed_noretry hatt hcond]
  exact ⟨rfl, rfl, by decide⟩

/-- C1 amended: in `sendTransaction` the nonce cursor is incremented
exactly once per attempt that reaches the broadcast step — immediately
before the broadcast, not on broadcast success — so a send whose (only)
broadcast fails also advances the cursor by one; within one call the
cursor advances by exactly the number of broadcast attempts, and only a
send that fails during the initial nonce fetch (with no proxy retry)
leaves the cursor unchanged and consumes no nonce. -/
theorem sendTransaction_c1_amended (envs : Nat → AttemptEnv) (pmEnabled : Bool)
    (tx : TxObject) (attempt : Nat) (n : Nat) :
    UsedFrom n (sendTransaction envs pmEnabled tx (some n) attempt) ∧
    (∀ e, (envs attempt).fetchNonce = Except.error e → isProxyError pmEnabled e = false →
      sendTransaction envs pmEnabled tx none attempt =
        (TxResult.failure (cleanErrorMessage e) (e.code.getD "UNKNOWN_ERROR") e, none, [])) := by
  constructor
  · exact (sendTransaction_spec envs pmEnabled (4 - tx.retryCount.getD 0) tx
      (some n) attempt le_rfl).2.1 n rfl
  · intro e hf hpe
    have hatt : sendAttempt (envs attempt) none = .failed e none [] := by
      simp [sendAttempt, hf]
    exact sendTransaction_failed_noretry hatt (by simp [hpe])

/-- Environment whose nonce fetch fails with a non-proxy error, for the C1
amended witness. -/
def envFetchFail : AttemptEnv :=
  { fetchNonce := .error { code := none, message := "missing revert data", reason := none },
    gasPrice := 0, gasEstimate := 0, broadcast := .ok (), wait := .ok { hash := "0x0" } }

/-- Witness for `sendTransaction_c1_amended` at a concrete environment. -/
theorem sendTransaction_c1_amended_witness :
    UsedFrom 7 (sendTransaction (fun _ => envC1) false
      txNone (some 7) 0) ∧
    sendTransaction (fun _ => envFetchFail) false
        txNone none 0 =
      (TxResult.failure "missing revert data" "UNKNOWN_ERROR"
        { code := none, message := "missing revert data", reason := none }, none, []) := by
  have h1 := sendTransaction_c1_amended (fun _ => envC1) false txNone 0 7
  have h2 := sendTransaction_c1_amended (fun _ => envFetchFail) false txNone 0 7
  refine ⟨h1.1, ?_⟩
  have := h2.2 { code := none, message := "missing revert data", reason := none } rfl
    (by decide)
  rw [this]
  rfl

/-! ## Session-level nonce sequencing (C4) -/

/-- A sequence of `sendTransaction` calls within one wallet session (no
intervening `resetNonce`): each call is given its environment family and
transaction object, the cursor threads from call to call.  Returns the
final cursor and the concatenated list of nonces placed in broadcast
attempts. -/
def runSession (calls : List ((Nat → AttemptEnv) × TxObject)) (pmEnabled : Bool)
    (cursor : Option Nat) : Option Nat × List Nat :=
  match calls with
  | [] => (cursor, [])
  | c :: rest =>
    ((runSession rest pmEnabled (sendTransaction c.1 pmEnabled c.2 cursor 0).2.1).1,
     (sendTransaction c.1 pmEnabled c.2 cursor 0).2.2 ++
       (runSession rest pmEnabled (sendTransaction c.1 pmEnabled c.2 cursor 0).2.1).2)

/-- A session starting from an initialized cursor `m` consumes exactly the
consecutive nonces from `m` and leaves the cursor one past the last. -/
theorem runSession_from_some (pmEnabled : Bool) :
    ∀ (calls : List ((Nat → AttemptEnv) × TxObject)) (m : Nat),
      (runSession calls pmEnabled (some m)).2 =
        List.range' m (runSession calls pmEnabled (some m)).2.length ∧
      (runSession calls pmEnabled (some m)).1 =
        some (m + (runSession calls pmEnabled (some m)).2.length) := by
  intro calls
  induction calls with
  | nil =>
    intro m
    simp [runSession]
  | cons c rest ih =>
    intro m
    obtain ⟨hu, hne, hc⟩ := (sendTransaction_spec c.1 pmEnabled
      (4 - c.2.retryCount.getD 0) c.2 (some m) 0 le_rfl).2.1 m rfl
    simp only [runSession]
    rw [hc]
    set L1 := (sendTransaction c.1 pmEnabled c.2 (some m) 0).2.2.length with hL1
    have hr := ih (m + L1)
    set L2 := (runSession rest pmEnabled (some (m + L1))).2.length with hL2
    have key : (sendTransaction c.1 pmEnabled c.2 (some m) 0).2.2 ++
        (runSession rest pmEnabled (some (m + L1))).2 = List.range' m (L1 + L2) := by
      rw [hu, hr.1, List.range'_append_1]
      congr 1
      omega
    constructor
    · rw [key, List.length_range']
    · rw [hr.2, key, List.length_range']
      congr 1
      omega

/-- C4 counterexample: session with a fresh cursor; the first network
fetch returns `n0 = 7`; the first send's broadcast throws a non-proxy
error (`execution reverted`), so the send fails — but it has consumed
nonce `7`; the second send's broadcast succeeds and carries nonce `8`.
Thus the session's single successful broadcast does not use `n0 = 7`,
contradicting the claim that the `N` successful broadcasts use exactly
`n0, …, n0+N-1` when failed attempts are interleaved. -/
def eRevert : JsError :=
  { code := some "CALL_EXCEPTION", message := "execution reverted", reason := none }

/-- First-call environment of the C4 counterexample. -/
def envC4a : AttemptEnv :=
  { fetchNonce := .ok 7, gasPrice := 0, gasEstimate := 0,
    broadcast := .error eRevert, wait := .error eRevert }

/-- Second-call environment of the C4 counterexample. -/
def envC4b : AttemptEnv :=
  { fetchNonce := .ok 99, gasPrice := 0, gasEstimate := 0,
    broadcast := .ok (), wait := .ok { hash := "0xabc" } }

/-- C4 counterexample theorem (see `envC4a`, `envC4b`). -/
theorem sendTransaction_c4_counterexample :
    envC4a.fetchNonce = Except.ok 7 ∧
    (sendTransaction (fun _ => envC4a) false
        txNone none 0).1 =
      TxResult.failure "CALL_EXCEPTION" "CALL_EXCEPTION" eRevert ∧
    (sendTransaction (fun _ => envC4a) false
        txNone none 0).2.1 = some 8 ∧
    (sendTransaction (fun _ => envC4b) false
        txNone (some 8) 0).1 =
      TxResult.success "0xabc" { hash := "0xabc" } ∧
    (sendTransaction (fun _ => envC4b) false
        txNone (some 8) 0).2.2 =
      [8] := by
  have hatta : sendAttempt ((fun _ => envC4a) 0) none =
      .failed eRevert (some 8) [7] := rfl
  have hconda : (isProxyError false eRevert &&
      retryAllowed txNone.retryCount) = false := rfl
  have hattb : sendAttempt ((fun _ => envC4b) 0) (some 8) =
      .done (.success "0xabc" { hash := "0xabc" }) (some 9) [8] := rfl
  rw [sendTransaction_failed_noretry hatta hconda, sendTransaction_done hattb]
  exact ⟨rfl, rfl, rfl, rfl, rfl⟩

/-- C4 amended: in one session starting from an uninitialized cursor, when
the first attempt's network fetch returns `n0`, the nonces placed in the
session's broadcast attempts — counting every attempt that reaches the
broadcast step, successful or not — are exactly `n0, n0+1, …` with no
repeats and no gaps, and the cursor ends one past the last; the original
claim holds with "successful broadcasts" weakened to "broadcast attempts",
since a failed broadcast also consumes its nonce slot. -/
theorem runSession_c4_amended (pmEnabled : Bool) (envs0 : Nat → AttemptEnv)
    (tx0 : TxObject) (rest : List ((Nat → AttemptEnv) × TxObject)) (n0 : Nat)
    (hf : (envs0 0).fetchNonce = Except.ok n0) :
    (runSession ((envs0, tx0) :: rest) pmEnabled none).2 =
      List.range' n0 (runSession ((envs0, tx0) :: rest) pmEnabled none).2.length ∧
    (runSession ((envs0, tx0) :: rest) pmEnabled none).2 ≠ [] ∧
    (runSession ((envs0, tx0) :: rest) pmEnabled none).2.Nodup ∧
    (runSession ((envs0, tx0) :: rest) pmEnabled none).1 =
      some (n0 + (runSession ((envs0, tx0) :: rest) pmEnabled none).2.length) := by
  obtain ⟨hu, hne, hc⟩ := (sendTransaction_spec envs0 pmEnabled
    (4 - tx0.retryCount.getD 0) tx0 none 0 le_rfl).2.2.2 n0 rfl hf
  have hmain :
      (runSession ((envs0, tx0) :: rest) pmEnabled none).2 =
        List.range' n0 (runSession ((envs0, tx0) :: rest) pmEnabled none).2.length ∧
      (runSession ((envs0, tx0) :: rest) pmEnabled none).1 =
        some (n0 + (runSession ((envs0, tx0) :: rest) pmEnabled none).2.length) := by
    simp only [runSession]
    rw [hc]
    set L1 := (sendTransaction envs0 pmEnabled tx0 none 0).2.2.length with hL1
    have hr := runSession_from_some pmEnabled rest (n0 + L1)
    set L2 := (runSession rest pmEnabled (some (n0 + L1))).2.length with hL2
    have key : (sendTransaction envs0 pmEnabled tx0 none 0).2.2 ++
        (runSession rest pmEnabled (some (n0 + L1))).2 = List.range' n0 (L1 + L2) := by
      rw [hu, hr.1, List.range'_append_1]
      congr 1
      omega
    constructor
    · rw [key, List.length_range']
    · rw [hr.2, key, List.length_range']
      congr 1
      omega
  refine ⟨hmain.1, ?_, ?_, hmain.2⟩
  · intro hnil
    rw [hnil] at hmain
    simp only [runSession] at hnil
    exact hne (List.append_eq_nil.mp hnil).1
  · rw [hmain.1]
    exact List.nodup_range' _ _

/-- Witness for `runSession_c4_amended`: a one-call session whose fetch
returns `7` and whose broadcast fails after consuming nonce `7`. -/
theorem runSession_c4_amended_witness :
    (envC4a.fetchNonce = Except.ok 7) ∧
    ((runSession [((fun _ => envC4a), txNone)] false none).2 =
      List.range' 7 (runSession [((fun _ => envC4a), txNone)] false none).2.length ∧
     (runSession [((fun _ => envC4a), txNone)] false none).2 ≠ [] ∧
     (runSession [((fun _ => envC4a), txNone)] false none).2.Nodup ∧
     (runSession [((fun _ => envC4a), txNone)] false none).1 =
      some (7 + (runSession [((fun _ => envC4a), txNone)] false none).2.length)) :=
  ⟨rfl, runSession_c4_amended false (fun _ => envC4a) txNone [] 7 rfl⟩

/-! ## Faucet claim (`claimFromFaucet` in `src/unnamed/part_002`) -/

/-- The fields of a resolved faucet response body that `claimFromFaucet`
inspects: `response.data.success` and `response.data.error`. -/
structure FaucetResponseData where
  success : Bool
  error : Option String
deriving Repr, DecidableEq

/-- Outcome of one faucet HTTP attempt: either axios resolved with a body,
or it threw, carrying an optional HTTP status (`error.response?.status`),
an optional body error text (`error.response?.data?.error`) and the error
message. -/
inductive FaucetOutcome where
  | response (data : FaucetResponseData)
  | thrown (status : Option Nat) (dataError : Option String) (message : String)
deriving Repr, DecidableEq

/-- Result of one loop iteration of `claimFromFaucet`: `ret b` is an
immediate `return b`; `cont lastError` records the error and proceeds to
the next attempt (the connection-error path also rotates the proxy or
falls back to a direct connection before continuing — state not observed
here). -/
inductive FaucetStep where
  | ret (b : Bool)
  | cont (lastError : String)
deriving Repr, DecidableEq

/-- One iteration body of the `while` loop of `claimFromFaucet` from
`src/unnamed/part_002`: a body with `success` is an immediate `true`; a
failure body whose error text mentions `wait 24 hours` or `rate limit` is
also an immediate `true` (already-funded wallet); a thrown error with HTTP
status 429 or a (truthy) body error text mentioning `rate limit` or
`wait 24 hours` is an immediate `true`; everything else records
`lastError` (the raw message on connection errors) and continues. -/
def faucetStep (o : FaucetOutcome) : FaucetStep :=
  match o with
  | .response data =>
    if data.success then .ret true
    else
      let errorMessage := data.error.getD "Unknown error"
      if jsIncludes errorMessage "wait 24 hours" || jsIncludes errorMessage "rate limit" then
        .ret true
      else
        .cont errorMessage
  | .thrown status dataError message =>
    let errorMessage := dataError.getD message
    if status == some 429 ||
        (match dataError with
         | some s => !(s == "") && (jsIncludes s "rate limit" || jsIncludes s "wait 24 hours")
         | none => false) then
      .ret true
    else if jsIncludes message "ECONNRESET" || jsIncludes message "ETIMEDOUT" ||
        jsIncludes message "ECONNREFUSED" || jsIncludes message "socket hang up" then
      .cont message
    else
      .cont errorMessage

/-- The attempt loop of `claimFromFaucet`: `fuel` is the number of
attempts still allowed (`maxAttempts - attempt`), `i` indexes the
attempts; returns the boolean outcome and the number of attempts
consumed.  When the attempts are exhausted the function returns `false`. -/
def claimGo (outcomes : Nat → FaucetOutcome) : Nat → Nat → Bool × Nat
  | 0, i => (false, i)
  | fuel + 1, i =>
    match faucetStep (outcomes i) with
    | .ret b => (b, i + 1)
    | .cont _ => claimGo outcomes fuel (i + 1)

/-- `claimFromFaucet()` from `src/unnamed/part_002`: run up to
`maxAttempts` attempts starting from attempt 0. -/
def claimFromFaucet (outcomes : Nat → FaucetOutcome) (maxAttempts : Nat) : Bool × Nat :=
  claimGo outcomes maxAttempts 0

/-- The rate-limit-class outcomes named by the claim: HTTP 429, or a
response/thrown body error text containing `wait 24 hours` or
`rate limit`. -/
def RateLimited (o : FaucetOutcome) : Prop :=
  (∃ st d m, o = .thrown st d m ∧ st = some 429) ∨
  (∃ d, o = .response d ∧ ∃ s, d.error = some s ∧
    (jsIncludes s "wait 24 hours" = true ∨ jsIncludes s "rate limit" = true)) ∨
  (∃ st d m s, o = .thrown st d m ∧ d = some s ∧
    (jsIncludes s "wait 24 hours" = true ∨ jsIncludes s "rate limit" = true))

/-- A rate-limit-class outcome makes the loop body return `true`
immediately. -/
theorem faucetStep_rateLimited (o : FaucetOutcome) (h : RateLimited o) :
    faucetStep o = .ret true := by
  rcases h with ⟨st, d, m, rfl, rfl⟩ | ⟨d, rfl, s, hs, hinc⟩ | ⟨st, d, m, s, rfl, rfl, hinc⟩
  · simp [faucetStep]
  · by_cases hsucc : d.success
    · simp [faucetStep, hsucc]
    · have hmsg : d.error.getD "Unknown error" = s := by rw [hs]; rfl
      rcases hinc with hi | hi <;>
        simp [faucetStep, hsucc, hmsg, hi]
  · have hne : s ≠ "" := by
      intro he
      subst he
      rcases hinc with hi | hi <;> exact absurd hi (by decide)
    have hbeq : (s == "") = false := beq_eq_false_iff_ne.mpr hne
    rcases hinc with hi | hi <;>
      simp [faucetStep, hbeq, hi]

/-- C8: a faucet attempt whose response is HTTP 429, or whose body error
text contains `wait 24 hours` or `rate limit`, makes `claimFromFaucet`
return `true` — the success outcome — immediately, consuming no further
retry attempts: at whatever attempt `i` the rate-limit outcome arrives,
the loop stops there with `true`, and in particular a first-attempt rate
limit yields `(true, 1)`. -/
theorem claimFromFaucet_c8 (outcomes : Nat → FaucetOutcome) (maxAttempts : Nat)
    (h0 : 0 < maxAttempts) (hrl : RateLimited (outcomes 0)) :
    claimFromFaucet outcomes maxAttempts = (true, 1) ∧
    ∀ fuel i, 0 < fuel → RateLimited (outcomes i) →
      claimGo outcomes fuel i = (true, i + 1) := by
  have hgen : ∀ fuel i, 0 < fuel → RateLimited (outcomes i) →
      claimGo outcomes fuel i = (true, i + 1) := by
    intro fuel i hfuel hi
    cases fuel with
    | zero => omega
    | succ f => simp [claimGo, faucetStep_rateLimited _ hi]
  constructor
  · cases maxAttempts with
    | zero => omega
    | succ k =>
      have := hgen (k + 1) 0 (by omega) hrl
      simpa [claimFromFaucet] using this
  · exact hgen

/-- Concrete rate-limited outcome stream: every attempt throws HTTP 429. -/
def outcomes429 : Nat → FaucetOutcome :=
  fun _ => .thrown (some 429) none "Request failed with status code 429"

/-- Witness for `claimFromFaucet_c8` on the concrete HTTP-429 stream. -/
theorem claimFromFaucet_c8_witness :
    claimFromFaucet outcomes429 3 = (true, 1) ∧
    ∀ fuel i, 0 < fuel → RateLimited (outcomes429 i) →
      claimGo outcomes429 fuel i = (true, i + 1) :=
  claimFromFaucet_c8 outcomes429 3 (by decide)
    (Or.inl ⟨some 429, none, "Request failed with status code 429", rfl, rfl⟩)

end Somnia
